import Mathlib

/-!
# terraform-provider-vertexaitxl: the `model_garden` resource

A shallow embedding of `internal/provider/resource_model_garden.go`:

* `stringToGenAIType` and `convertToGenAISchema`, the translation of a
  user-supplied schema description into the schema type of the model client;
* `ModelGardenResource.Create` and `ModelGardenResource.Update`, the two
  lifecycle operations that call the model, with every external collaborator
  (plan decoding, client creation, JSON decoding, the generation call) taken
  as a parameter.

Go values are embedded as follows: `string` is `String`, `int64` is `Int`,
`float64` is its bit pattern (the code only copies it), a pointer `*T` is
`Option T` with `nil` as `none`, a slice is a `List`, and a `map[string]V` is an
association list of its entries (a nil map and an empty map are both `[]`).
-/

namespace provider

/-! ## Library types used by the translator -/

namespace genai

/-- The `genai.Type` enumeration of the model client. -/
inductive Type_ where
  | TypeUnspecified
  | TypeString
  | TypeNumber
  | TypeInteger
  | TypeBoolean
  | TypeArray
  | TypeObject
  deriving DecidableEq, Repr

end genai

/-- A Go `float64`, carried as its IEEE-754 bit pattern. -/
structure Float64 where
  bits : Nat
  deriving DecidableEq, Repr

namespace unicode

/-- Go's `unicode.ToLower` on the runes whose lower case is an ASCII letter:
`A`..`Z`, U+0130 (lower case `i`) and U+212A (lower case `k`). Every other rune
with a case mapping is sent by Go to a rune outside ASCII; it is kept as it is
here, which cannot change whether a lowered string equals an ASCII word. -/
def ToLower (r : Char) : Char :=
  if 'A' ≤ r ∧ r ≤ 'Z' then Char.ofNat (r.toNat + 32)
  else if r = Char.ofNat 0x130 then 'i'
  else if r = Char.ofNat 0x212A then 'k'
  else r

end unicode

namespace strings

/-- Go's `strings.ToLower`: every rune mapped through `unicode.ToLower`. -/
def ToLower (s : String) : String :=
  String.mk (s.data.map unicode.ToLower)

end strings

/-! ## `stringToGenAIType` -/

/-- The function `stringToGenAIType`: a switch on the lowered type string. -/
def stringToGenAIType (strType : String) : genai.Type_ :=
  match strings.ToLower strType with
  | "string" => genai.Type_.TypeString
  | "number" => genai.Type_.TypeNumber
  | "integer" => genai.Type_.TypeInteger
  | "bool" => genai.Type_.TypeBoolean
  | "array" => genai.Type_.TypeArray
  | "object" => genai.Type_.TypeObject
  | _ => genai.Type_.TypeString

/-! ## The schema record

`Schema` (this package) and `genai.Schema` (the client library) have the same
eighteen fields and differ only in the type of `Type`: a `string` in the first,
a `genai.Type` in the second. Both are instances of `SchemaOf`. -/

/-- A schema node whose `Type` field has type `T`. -/
inductive SchemaOf (T : Type) where
  | mk (Type_ : T) (Format : String) (Title : String) (Description : String)
      (Nullable : Bool) (Items : Option (SchemaOf T)) (MinItems : Int) (MaxItems : Int)
      (Enum : List String) (Properties : List (String × Option (SchemaOf T)))
      (Required : List String) (MinProperties : Int) (MaxProperties : Int)
      (Minimum : Float64) (Maximum : Float64) (MinLength : Int) (MaxLength : Int)
      (Pattern : String)

namespace SchemaOf

variable {T : Type}

/-- Field `Type`. -/
def Type_ : SchemaOf T → T
  | mk t _ _ _ _ _ _ _ _ _ _ _ _ _ _ _ _ _ => t

/-- Field `Format`. -/
def Format : SchemaOf T → String
  | mk _ x _ _ _ _ _ _ _ _ _ _ _ _ _ _ _ _ => x

/-- Field `Title`. -/
def Title : SchemaOf T → String
  | mk _ _ x _ _ _ _ _ _ _ _ _ _ _ _ _ _ _ => x

/-- Field `Description`. -/
def Description : SchemaOf T → String
  | mk _ _ _ x _ _ _ _ _ _ _ _ _ _ _ _ _ _ => x

/-- Field `Nullable`. -/
def Nullable : SchemaOf T → Bool
  | mk _ _ _ _ x _ _ _ _ _ _ _ _ _ _ _ _ _ => x

/-- Field `Items`. -/
def Items : SchemaOf T → Option (SchemaOf T)
  | mk _ _ _ _ _ x _ _ _ _ _ _ _ _ _ _ _ _ => x

/-- Field `MinItems`. -/
def MinItems : SchemaOf T → Int
  | mk _ _ _ _ _ _ x _ _ _ _ _ _ _ _ _ _ _ => x

/-- Field `MaxItems`. -/
def MaxItems : SchemaOf T → Int
  | mk _ _ _ _ _ _ _ x _ _ _ _ _ _ _ _ _ _ => x

/-- Field `Enum`. -/
def Enum : SchemaOf T → List String
  | mk _ _ _ _ _ _ _ _ x _ _ _ _ _ _ _ _ _ => x

/-- Field `Properties`. -/
def Properties : SchemaOf T → List (String × Option (SchemaOf T))
  | mk _ _ _ _ _ _ _ _ _ x _ _ _ _ _ _ _ _ => x

/-- Field `Required`. -/
def Required : SchemaOf T → List String
  | mk _ _ _ _ _ _ _ _ _ _ x _ _ _ _ _ _ _ => x

/-- Field `MinProperties`. -/
def MinProperties : SchemaOf T → Int
  | mk _ _ _ _ _ _ _ _ _ _ _ x _ _ _ _ _ _ => x

/-- Field `MaxProperties`. -/
def MaxProperties : SchemaOf T → Int
  | mk _ _ _ _ _ _ _ _ _ _ _ _ x _ _ _ _ _ => x

/-- Field `Minimum`. -/
def Minimum : SchemaOf T → Float64
  | mk _ _ _ _ _ _ _ _ _ _ _ _ _ x _ _ _ _ => x

/-- Field `Maximum`. -/
def Maximum : SchemaOf T → Float64
  | mk _ _ _ _ _ _ _ _ _ _ _ _ _ _ x _ _ _ => x

/-- Field `MinLength`. -/
def MinLength : SchemaOf T → Int
  | mk _ _ _ _ _ _ _ _ _ _ _ _ _ _ _ x _ _ => x

/-- Field `MaxLength`. -/
def MaxLength : SchemaOf T → Int
  | mk _ _ _ _ _ _ _ _ _ _ _ _ _ _ _ _ x _ => x

/-- Field `Pattern`. -/
def Pattern : SchemaOf T → String
  | mk _ _ _ _ _ _ _ _ _ _ _ _ _ _ _ _ _ x => x

/-- The Go zero value of the record. -/
def zero (t : T) : SchemaOf T :=
  mk t "" "" "" false none 0 0 [] [] [] 0 0 ⟨0⟩ ⟨0⟩ 0 0 ""

/-- A node with the given `Type`, `Items` and `Properties`, every other field zero. -/
def shape (t : T) (items : Option (SchemaOf T))
    (properties : List (String × Option (SchemaOf T))) : SchemaOf T :=
  mk t "" "" "" false items 0 0 [] properties [] 0 0 ⟨0⟩ ⟨0⟩ 0 0 ""

end SchemaOf

/-- The `Schema` struct of this package: `Type` is a string. -/
abbrev Schema := SchemaOf String

namespace genai

/-- The `genai.Schema` struct of the client library: `Type` is a `genai.Type`. -/
abbrev Schema := SchemaOf genai.Type_

end genai

/-! ## `convertToGenAISchema`

The Go function is one recursive function on `*Schema`. Its recursion goes
through the pointer, through the `Properties` map and through each map entry,
so the embedding is one recursive function for each of these, all structural. -/

mutual

/-- The function `convertToGenAISchema` on a pointer: `nil` gives `nil`. -/
def convertToGenAISchema : Option Schema → Option genai.Schema
  | none => none
  | some config => some (convertToGenAISchema.node config)

/-- The body of `convertToGenAISchema` after the nil check. -/
def convertToGenAISchema.node : Schema → genai.Schema
  | SchemaOf.mk type format title description nullable items minItems maxItems enum
      properties required minProperties maxProperties minimum maximum minLength maxLength
      pattern =>
    SchemaOf.mk (stringToGenAIType type) format title description nullable
      (if items.isSome then convertToGenAISchema items else none)
      minItems maxItems enum
      (if properties.length > 0 then convertToGenAISchema.properties properties else [])
      required minProperties maxProperties minimum maximum minLength maxLength pattern

/-- The loop over `config.Properties`: one output entry for each input entry. -/
def convertToGenAISchema.properties :
    List (String × Option Schema) → List (String × Option genai.Schema)
  | [] => []
  | entry :: rest =>
    convertToGenAISchema.entry entry :: convertToGenAISchema.properties rest

/-- The loop body `schema.Properties[propertykey] = convertToGenAISchema(propertyvalue)`. -/
def convertToGenAISchema.entry : String × Option Schema → String × Option genai.Schema
  | (propertykey, propertyvalue) => (propertykey, convertToGenAISchema propertyvalue)

end

/-! ## Framework and client types used by the lifecycle operations -/

/-- A Go `string`, named so that it can be used where `types.String` is in scope. -/
abbrev GoString := String

namespace types

/-- The framework's `types.String`: null, unknown, or a known string. -/
inductive String where
  | Null
  | Unknown
  | Value (value : GoString)
  deriving DecidableEq, Repr

/-- The constructor `types.StringValue`. -/
def StringValue (value : GoString) : types.String :=
  String.Value value

/-- The method `ValueString`: the known string, or `""` when null or unknown. -/
def String.ValueString : types.String → GoString
  | String.Value value => value
  | _ => ""

end types

namespace diag

/-- Severity of a diagnostic. -/
inductive Severity where
  | SeverityInvalid
  | SeverityError
  | SeverityWarning
  deriving DecidableEq, Repr

/-- A diagnostic: severity, short title (summary) and detail message. -/
structure Diagnostic where
  Severity : Severity
  Summary : GoString
  Detail : GoString
  deriving DecidableEq, Repr

/-- The collection `diag.Diagnostics`. -/
abbrev Diagnostics := List Diagnostic

/-- The method `Contains`. -/
def Diagnostics.Contains (diags : Diagnostics) (d : Diagnostic) : Bool :=
  diags.any (fun e => decide (e = d))

/-- The method `Append`: adds each diagnostic that is not already in the collection. -/
def Diagnostics.Append (diags : Diagnostics) (new : List Diagnostic) : Diagnostics :=
  new.foldl (fun acc d => if Diagnostics.Contains acc d then acc else acc ++ [d]) diags

/-- The method `AddError`: appends an error diagnostic with the given title and detail. -/
def Diagnostics.AddError (diags : Diagnostics) (summary detail : GoString) : Diagnostics :=
  Diagnostics.Append diags [⟨Severity.SeverityError, summary, detail⟩]

/-- The method `HasError`: some diagnostic has error severity. -/
def Diagnostics.HasError (diags : Diagnostics) : Bool :=
  diags.any (fun d => decide (d.Severity = Severity.SeverityError))

end diag

/-- The resource model `ModelGardenResourceModel`. -/
structure ModelGardenResourceModel where
  Prompt : types.String
  ProjectID : types.String
  Location : types.String
  ModelName : types.String
  ResponseSchema : types.String
  Response : types.String
  deriving DecidableEq, Repr

namespace tfsdk

/-- A `tfsdk.Plan`, seen through its method `Get`: the diagnostics `Get` returns and
the model it decodes into its target. -/
structure Plan where
  GetDiags : diag.Diagnostics
  GetValue : ModelGardenResourceModel
  deriving DecidableEq, Repr

/-- A `tfsdk.State`: absent (null), or the six attribute values of the resource. -/
abbrev State := Option ModelGardenResourceModel

/-- The method `State.Set`. The six `tfsdk` tags of `ModelGardenResourceModel` are
the six attributes declared by `ModelGardenResource.Schema`, all strings, so encoding
the model cannot fail: the state becomes the model and no diagnostic is returned. -/
def State.Set (_s : State) (val : ModelGardenResourceModel) : State × diag.Diagnostics :=
  (some val, [])

end tfsdk

namespace resource

/-- The request `resource.CreateRequest` (the plan is the only field read). -/
structure CreateRequest where
  Plan : tfsdk.Plan

/-- The request `resource.UpdateRequest`: the plan and the prior state. -/
structure UpdateRequest where
  Plan : tfsdk.Plan
  State : tfsdk.State

/-- The response `resource.CreateResponse`: the state to persist and the diagnostics. -/
structure CreateResponse where
  State : tfsdk.State
  Diagnostics : diag.Diagnostics
  deriving DecidableEq, Repr

/-- The response `resource.UpdateResponse` has the same two fields. -/
abbrev UpdateResponse := CreateResponse

end resource

namespace option

/-- A client option; `provider.go` builds only `option.WithCredentialsJSON`. -/
inductive ClientOption where
  | WithCredentialsJSON (credBytes : List Nat)
  deriving DecidableEq, Repr

end option

namespace genai

/-- A content part: a `genai.Text`, or a part of another kind (blob, function call,
file data) carried as the text that `%v` prints for it. -/
inductive Part where
  | Text (text : GoString)
  | Other (printed : GoString)
  deriving DecidableEq, Repr

/-- Modelled from the spec: the declaration of the content type is not in the
sources; a candidate carries "an ordered sequence of content parts". -/
structure Content where
  Parts : List Part
  deriving DecidableEq, Repr

/-- The candidate type of the client library, of which the code reads only the
field `Content`. That field is a pointer `*Content`: it is nil when the backend
answers a candidate that carries no content. -/
structure Candidate where
  Content : Option Content
  deriving DecidableEq, Repr

/-- Modelled from the spec: the declaration of the response type is not in the
sources; "one response containing an ordered sequence of candidates, each with an
ordered sequence of content parts". -/
structure GenerateContentResponse where
  Candidates : List Candidate
  deriving DecidableEq, Repr

/-- The two fields of `GenerationConfig` that the resource assigns. -/
structure GenerationConfig where
  ResponseMIMEType : GoString
  ResponseSchema : Option genai.Schema

/-- A client, identified by the arguments of `genai.NewClient`. -/
structure Client where
  projectID : GoString
  location : GoString
  opts : List option.ClientOption

/-- A generative model of a client. -/
structure GenerativeModel where
  c : Client
  name : GoString
  GenerationConfig : GenerationConfig

/-- The method `Client.GenerativeModel`: a model with the zero generation config. -/
def Client.GenerativeModel (c : Client) (name : GoString) : GenerativeModel :=
  ⟨c, name, ⟨"", none⟩⟩

end genai

namespace fmt

/-- The call `fmt.Sprintf("%v", part)` on a content part. -/
def Sprintf_v : genai.Part → GoString
  | genai.Part.Text text => text
  | genai.Part.Other printed => printed

end fmt

/-- The external collaborators of the lifecycle operations. An `error` is carried
as the text `%v` prints for it. -/
structure World where
  /-- The call `genai.NewClient`: the error it returns, if any. -/
  NewClient : GoString → GoString → List option.ClientOption → Option GoString
  /-- The call `json.Unmarshal` of a text into a zero `Schema`. -/
  Unmarshal : GoString → Except GoString Schema
  /-- The method `GenerativeModel.GenerateContent`. -/
  GenerateContent : genai.GenerativeModel → List genai.Part →
    Except GoString genai.GenerateContentResponse

/-- A call made on the model backend. -/
inductive Call where
  | NewClient (projectID location : GoString) (opts : List option.ClientOption)
  | GenerateContent (model : genai.GenerativeModel) (parts : List genai.Part)
  | Close

/-- How an operation ends: it returns, or it panics. Either way `resp` is the
response as the operation leaves it (the response is written through a pointer). -/
inductive Outcome where
  | returned (resp : resource.CreateResponse)
  | panicked (resp : resource.CreateResponse)
  deriving DecidableEq

/-- The response an operation leaves behind. -/
def Outcome.resp : Outcome → resource.CreateResponse
  | Outcome.returned resp => resp
  | Outcome.panicked resp => resp

/-- A finished operation: how it ended and the backend calls it made, in order. -/
structure Run where
  outcome : Outcome
  calls : List Call

/-- The resource `ModelGardenResource`. -/
structure ModelGardenResource where
  clientOptions : List option.ClientOption

/-! ## `ModelGardenResource.Create` and `ModelGardenResource.Update`

Each operation is transcribed statement by statement. `defer client.Close()` is
the `Call.Close` that ends the call list on every path after the client exists.
Indexing a slice is `xs[0]?`; where it has no element the operation panics, and
so it does where it reads a field through a nil pointer.
`tflog.Trace` has no effect on the response and is left out. -/

/-- The method `ModelGardenResource.Create`. -/
def ModelGardenResource.Create (w : World) (r : ModelGardenResource)
    (req : resource.CreateRequest) (resp : resource.CreateResponse) : Run :=
  let plan := req.Plan.GetValue
  let diags := diag.Diagnostics.Append resp.Diagnostics req.Plan.GetDiags
  if diag.Diagnostics.HasError diags then
    ⟨Outcome.returned ⟨resp.State, diags⟩, []⟩
  else
    let projectID := plan.ProjectID.ValueString
    let location := plan.Location.ValueString
    let dial := Call.NewClient projectID location r.clientOptions
    match w.NewClient projectID location r.clientOptions with
    | some err =>
      ⟨Outcome.returned ⟨resp.State, diag.Diagnostics.AddError diags
        "Error creating Vertex AI client" ("Could not create client: " ++ err)⟩, [dial]⟩
    | none =>
      let client : genai.Client := ⟨projectID, location, r.clientOptions⟩
      let model := client.GenerativeModel plan.ModelName.ValueString
      let model : genai.GenerativeModel :=
        ⟨model.c, model.name, ⟨"application/json", model.GenerationConfig.ResponseSchema⟩⟩
      match w.Unmarshal plan.ResponseSchema.ValueString with
      | Except.error err =>
        ⟨Outcome.returned ⟨resp.State, diag.Diagnostics.AddError diags
          "Error while reading the json string of response schema"
          ("Could not create client: " ++ err)⟩, [dial, Call.Close]⟩
      | Except.ok schemaMap =>
        let generatedSchema := convertToGenAISchema (some schemaMap)
        let model : genai.GenerativeModel :=
          ⟨model.c, model.name, ⟨model.GenerationConfig.ResponseMIMEType, generatedSchema⟩⟩
        let parts := [genai.Part.Text plan.Prompt.ValueString]
        let calls := [dial, Call.GenerateContent model parts, Call.Close]
        match w.GenerateContent model parts with
        | Except.error err =>
          ⟨Outcome.returned ⟨resp.State, diag.Diagnostics.AddError diags
            "Error generating content" ("Could not generate content: " ++ err)⟩, calls⟩
        | Except.ok result =>
          let empty : Run :=
            ⟨Outcome.returned ⟨resp.State, diag.Diagnostics.AddError diags
              "Empty response" "The model returned an empty response"⟩, calls⟩
          let panic : Run := ⟨Outcome.panicked ⟨resp.State, diags⟩, calls⟩
          if result.Candidates.length = 0 then empty
          else
            match result.Candidates[0]? with
            | none => panic
            | some candidate =>
              match candidate.Content with
              | none => panic
              | some content =>
                if content.Parts.length = 0 then empty
                else
                  match content.Parts[0]? with
                  | none => panic
                  | some part =>
                    let plan : ModelGardenResourceModel :=
                      { plan with Response := types.StringValue (fmt.Sprintf_v part) }
                    let set := tfsdk.State.Set resp.State plan
                    ⟨Outcome.returned ⟨set.1, diag.Diagnostics.Append diags set.2⟩, calls⟩

/-- The method `ModelGardenResource.Update`. -/
def ModelGardenResource.Update (w : World) (r : ModelGardenResource)
    (req : resource.UpdateRequest) (resp : resource.UpdateResponse) : Run :=
  let plan := req.Plan.GetValue
  let diags := diag.Diagnostics.Append resp.Diagnostics req.Plan.GetDiags
  if diag.Diagnostics.HasError diags then
    ⟨Outcome.returned ⟨resp.State, diags⟩, []⟩
  else
    let projectID := plan.ProjectID.ValueString
    let location := plan.Location.ValueString
    let dial := Call.NewClient projectID location r.clientOptions
    match w.NewClient projectID location r.clientOptions with
    | some err =>
      ⟨Outcome.returned ⟨resp.State, diag.Diagnostics.AddError diags
        "Error creating Vertex AI client" ("Could not create client: " ++ err)⟩, [dial]⟩
    | none =>
      let client : genai.Client := ⟨projectID, location, r.clientOptions⟩
      let model := client.GenerativeModel plan.ModelName.ValueString
      let model : genai.GenerativeModel :=
        ⟨model.c, model.name, ⟨"application/json", model.GenerationConfig.ResponseSchema⟩⟩
      match w.Unmarshal plan.ResponseSchema.ValueString with
      | Except.error err =>
        ⟨Outcome.returned ⟨resp.State, diag.Diagnostics.AddError diags
          "Error while reading the json string of response schema"
          ("Could not create client: " ++ err)⟩, [dial, Call.Close]⟩
      | Except.ok schemaMap =>
        let generatedSchema := convertToGenAISchema (some schemaMap)
        let model : genai.GenerativeModel :=
          ⟨model.c, model.name, ⟨model.GenerationConfig.ResponseMIMEType, generatedSchema⟩⟩
        let parts := [genai.Part.Text plan.Prompt.ValueString]
        let calls := [dial, Call.GenerateContent model parts, Call.Close]
        match w.GenerateContent model parts with
        | Except.error err =>
          ⟨Outcome.returned ⟨resp.State, diag.Diagnostics.AddError diags
            "Error generating content" ("Could not generate content: " ++ err)⟩, calls⟩
        | Except.ok result =>
          let empty : Run :=
            ⟨Outcome.returned ⟨resp.State, diag.Diagnostics.AddError diags
              "Empty response" "The model returned an empty response"⟩, calls⟩
          let panic : Run := ⟨Outcome.panicked ⟨resp.State, diags⟩, calls⟩
          if result.Candidates.length = 0 then empty
          else
            match result.Candidates[0]? with
            | none => panic
            | some candidate =>
              match candidate.Content with
              | none => panic
              | some content =>
                if content.Parts.length = 0 then empty
                else
                  match content.Parts[0]? with
                  | none => panic
                  | some part =>
                    let plan : ModelGardenResourceModel :=
                      { plan with Response := types.StringValue (fmt.Sprintf_v part) }
                    let set := tfsdk.State.Set resp.State plan
                    ⟨Outcome.returned ⟨set.1, diag.Diagnostics.Append diags set.2⟩, calls⟩

/-! ## Definitions used to state the claims -/

/-- The schema of the recursive-fidelity scenario: an object with properties
`a` (an integer) and `b` (an array of strings). -/
def fidelityExample : Schema :=
  SchemaOf.shape "object" none
    [("a", some (SchemaOf.zero "integer")),
     ("b", some (SchemaOf.shape "array" (some (SchemaOf.zero "string")) []))]

/-- The diagnostics held by the response once the plan has been decoded. -/
def decodedDiagnostics (plan : tfsdk.Plan) (resp : resource.CreateResponse) : diag.Diagnostics :=
  diag.Diagnostics.Append resp.Diagnostics plan.GetDiags

/-- The backend request described by the specification for a plan and its parsed
schema: the model named by the plan on a client for the plan's project and location,
with the JSON output encoding and the translated schema as output shape. -/
def requestedModel (r : ModelGardenResource) (plan : ModelGardenResourceModel)
    (schemaMap : Schema) : genai.GenerativeModel :=
  ⟨⟨plan.ProjectID.ValueString, plan.Location.ValueString, r.clientOptions⟩,
    plan.ModelName.ValueString,
    ⟨"application/json", convertToGenAISchema (some schemaMap)⟩⟩

/-- The content sent with the request: the prompt of the plan, as one text part. -/
def requestedParts (plan : ModelGardenResourceModel) : List genai.Part :=
  [genai.Part.Text plan.Prompt.ValueString]

/-- Every step of the pipeline succeeds: the plan decodes without error, the client
is created, the schema text parses, the generation call returns a response, and the
response has a first candidate with a content that has a first part. -/
def everyStepSucceeds (w : World) (r : ModelGardenResource) (plan : tfsdk.Plan)
    (resp : resource.CreateResponse) : Prop :=
  diag.Diagnostics.HasError (decodedDiagnostics plan resp) = false ∧
  w.NewClient plan.GetValue.ProjectID.ValueString plan.GetValue.Location.ValueString
    r.clientOptions = none ∧
  ∃ schemaMap result candidate candidates content part parts,
    w.Unmarshal plan.GetValue.ResponseSchema.ValueString = Except.ok schemaMap ∧
    w.GenerateContent (requestedModel r plan.GetValue schemaMap) (requestedParts plan.GetValue)
      = Except.ok result ∧
    result.Candidates = candidate :: candidates ∧
    candidate.Content = some content ∧
    content.Parts = part :: parts

/-- A plan that decodes without diagnostics: prompt `X`, the project, location and
model of the acceptance test, and the given schema text. -/
def planWith (responseSchema : GoString) : tfsdk.Plan :=
  ⟨[], ⟨types.String.Value "X", types.String.Value "my-project",
    types.String.Value "us-central1", types.String.Value "gemini-1.5-pro-002",
    types.String.Value responseSchema, types.String.Unknown⟩⟩

/-- A well-formed schema text. -/
def objectText : GoString :=
  "\x7b\"type\":\"object\"\x7d"

/-- A truncated schema text. -/
def truncatedText : GoString :=
  "\x7b\"type\":\"obj"

/-- A decoder that accepts `objectText` and rejects every other text. -/
def decodeObjectText (text : GoString) : Except GoString Schema :=
  if text = objectText then Except.ok (SchemaOf.zero "object")
  else Except.error "unexpected end of JSON input"

/-- A world in which every collaborator succeeds and the backend answers with two
candidates, the first of which has two parts. -/
def answeringWorld : World :=
  ⟨fun _ _ _ => none, decodeObjectText,
    fun _ _ => Except.ok ⟨[⟨some ⟨[genai.Part.Text "first", genai.Part.Text "second"]⟩⟩,
      ⟨some ⟨[genai.Part.Text "third"]⟩⟩]⟩⟩

/-- A world in which the backend answers with one candidate whose content has no part. -/
def silentWorld : World :=
  ⟨fun _ _ _ => none, decodeObjectText, fun _ _ => Except.ok ⟨[⟨some ⟨[]⟩⟩]⟩⟩

/-- A world in which the backend answers with one candidate that has no content. -/
def contentlessWorld : World :=
  ⟨fun _ _ _ => none, decodeObjectText, fun _ _ => Except.ok ⟨[⟨none⟩]⟩⟩

/-- A world in which no client can be created. -/
def unreachableWorld : World :=
  ⟨fun _ _ _ => some "could not find default credentials", decodeObjectText,
    fun _ _ => Except.error "unreachable"⟩

/-! ## Facts about the translator -/

theorem convertToGenAISchema_some (config : Schema) :
    convertToGenAISchema (some config) = some (convertToGenAISchema.node config) := by
  simp [convertToGenAISchema]

theorem convertToGenAISchema_properties_eq_map (properties : List (String × Option Schema)) :
    convertToGenAISchema.properties properties
      = properties.map (fun entry => (entry.1, convertToGenAISchema entry.2)) := by
  induction properties with
  | nil => simp [convertToGenAISchema.properties]
  | cons entry rest ih =>
    obtain ⟨key, value⟩ := entry
    simp [convertToGenAISchema.properties, convertToGenAISchema.entry, ih]

theorem node_Type (config : Schema) :
    (convertToGenAISchema.node config).Type_ = stringToGenAIType config.Type_ := by
  cases config
  simp [convertToGenAISchema.node, SchemaOf.Type_]

theorem node_Items (config : Schema) :
    (convertToGenAISchema.node config).Items = convertToGenAISchema config.Items := by
  cases config with
  | mk _ _ _ _ _ items _ _ _ _ _ _ _ _ _ _ _ _ =>
    cases items <;> simp [convertToGenAISchema.node, SchemaOf.Items, convertToGenAISchema]

theorem node_Properties (config : Schema) :
    (convertToGenAISchema.node config).Properties
      = config.Properties.map (fun entry => (entry.1, convertToGenAISchema entry.2)) := by
  cases config with
  | mk _ _ _ _ _ _ _ _ _ properties _ _ _ _ _ _ _ _ =>
    cases properties with
    | nil => simp [convertToGenAISchema.node, SchemaOf.Properties]
    | cons entry rest =>
      simp [convertToGenAISchema.node, SchemaOf.Properties,
        convertToGenAISchema_properties_eq_map]

theorem lookup_map_entry (key : String) (properties : List (String × Option Schema)) :
    List.lookup key (properties.map (fun entry => (entry.1, convertToGenAISchema entry.2)))
      = (List.lookup key properties).map convertToGenAISchema := by
  induction properties with
  | nil => simp
  | cons entry rest ih =>
    obtain ⟨k, v⟩ := entry
    simp only [List.map_cons, List.lookup_cons]
    cases h : (key == k) <;> simp [ih]

theorem stringToGenAIType_unrecognized (strType : String)
    (h : strings.ToLower strType ∉ ["number", "integer", "bool", "array", "object"]) :
    stringToGenAIType strType = genai.Type_.TypeString := by
  simp only [List.mem_cons, List.mem_singleton, List.not_mem_nil, or_false, not_or] at h
  unfold stringToGenAIType
  split <;> simp_all

/-! ## Claims about the translator -/

/-- C2: for every type string whose lowered form is none of string, number, integer,
bool, boolean, array, object (the empty string included), `stringToGenAIType` returns
String, and translating a node with that type string returns a schema of type String. -/
theorem C2_unrecognized_type_falls_back_to_String (strType : String)
    (h : strings.ToLower strType ∉
      ["string", "number", "integer", "bool", "boolean", "array", "object"]) :
    stringToGenAIType strType = genai.Type_.TypeString ∧
    ∀ config : Schema, config.Type_ = strType →
      ∃ out, convertToGenAISchema (some config) = some out ∧
        out.Type_ = genai.Type_.TypeString := by
  have hs : stringToGenAIType strType = genai.Type_.TypeString := by
    apply stringToGenAIType_unrecognized
    simp only [List.mem_cons, List.mem_singleton, List.not_mem_nil, or_false, not_or] at h ⊢
    tauto
  refine ⟨hs, ?_⟩
  intro config hc
  refine ⟨convertToGenAISchema.node config, convertToGenAISchema_some _, ?_⟩
  rw [node_Type, hc, hs]

/-- C2 (witness): the empty type string and the unknown type string `Float` both
fall back to String. -/
theorem C2_unrecognized_type_falls_back_to_String_witness :
    stringToGenAIType "" = genai.Type_.TypeString ∧
    stringToGenAIType "Float" = genai.Type_.TypeString :=
  ⟨(C2_unrecognized_type_falls_back_to_String "" (by decide)).1,
   (C2_unrecognized_type_falls_back_to_String "Float" (by decide)).1⟩

/-- C3: for every non-nil input schema, whatever its type string, the output of
`convertToGenAISchema` has format, title, description, nullable, minItems, maxItems,
enum, required, minProperties, maxProperties, minimum, maximum, minLength, maxLength
and pattern equal to the input field of the same name. -/
theorem C3_constraint_fields_are_copied (config : Schema) :
    ∃ out, convertToGenAISchema (some config) = some out ∧
      out.Format = config.Format ∧ out.Title = config.Title ∧
      out.Description = config.Description ∧ out.Nullable = config.Nullable ∧
      out.MinItems = config.MinItems ∧ out.MaxItems = config.MaxItems ∧
      out.Enum = config.Enum ∧ out.Required = config.Required ∧
      out.MinProperties = config.MinProperties ∧ out.MaxProperties = config.MaxProperties ∧
      out.Minimum = config.Minimum ∧ out.Maximum = config.Maximum ∧
      out.MinLength = config.MinLength ∧ out.MaxLength = config.MaxLength ∧
      out.Pattern = config.Pattern := by
  refine ⟨convertToGenAISchema.node config, convertToGenAISchema_some _, ?_⟩
  cases config
  simp [convertToGenAISchema.node, SchemaOf.Format, SchemaOf.Title, SchemaOf.Description,
    SchemaOf.Nullable, SchemaOf.MinItems, SchemaOf.MaxItems, SchemaOf.Enum, SchemaOf.Required,
    SchemaOf.MinProperties, SchemaOf.MaxProperties, SchemaOf.Minimum, SchemaOf.Maximum,
    SchemaOf.MinLength, SchemaOf.MaxLength, SchemaOf.Pattern]

/-- C4: `convertToGenAISchema` preserves the tree shape. The output properties have
the keys of the input properties, in the same entries, and the value at each key is
`convertToGenAISchema` of the input value at that key; the output items is present
exactly when the input items is, and is `convertToGenAISchema` of it. On the object
with properties `a` (integer) and `b` (array of strings) the output is an Object whose
property `a` has type Integer and whose property `b` has items of type String. -/
theorem C4_tree_shape_is_preserved :
    (∀ config : Schema, ∃ out, convertToGenAISchema (some config) = some out ∧
      out.Properties.map Prod.fst = config.Properties.map Prod.fst ∧
      (∀ key, List.lookup key out.Properties
        = (List.lookup key config.Properties).map convertToGenAISchema) ∧
      (out.Items.isSome ↔ config.Items.isSome) ∧
      out.Items = convertToGenAISchema config.Items) ∧
    (∃ out a b items, convertToGenAISchema (some fidelityExample) = some out ∧
      out.Type_ = genai.Type_.TypeObject ∧
      out.Properties.map Prod.fst = ["a", "b"] ∧
      List.lookup "a" out.Properties = some (some a) ∧ a.Type_ = genai.Type_.TypeInteger ∧
      List.lookup "b" out.Properties = some (some b) ∧ b.Type_ = genai.Type_.TypeArray ∧
      b.Items = some items ∧ items.Type_ = genai.Type_.TypeString) := by
  constructor
  · intro config
    refine ⟨convertToGenAISchema.node config, convertToGenAISchema_some _, ?_, ?_, ?_, ?_⟩
    · rw [node_Properties]; simp [Function.comp_def]
    · intro key; rw [node_Properties]; exact lookup_map_entry key _
    · rw [node_Items]; cases config.Items <;> simp [convertToGenAISchema]
    · exact node_Items config
  · exact ⟨_, _, _, _, rfl, rfl, rfl, rfl, rfl, rfl, rfl, rfl, rfl⟩

/-- C5: `convertToGenAISchema` returns nil exactly when its input is nil: nil gives
nil, and every non-nil input gives a non-nil output. -/
theorem C5_nil_iff_nil :
    convertToGenAISchema none = none ∧
    (∀ config : Schema, convertToGenAISchema (some config) ≠ none) ∧
    (∀ config : Option Schema, convertToGenAISchema config = none ↔ config = none) := by
  refine ⟨by simp [convertToGenAISchema], ?_, ?_⟩
  · intro config; simp [convertToGenAISchema]
  · intro config; cases config <;> simp [convertToGenAISchema]

/-! ## Facts about diagnostics -/

namespace diag

theorem HasError_of_Contains (diags : Diagnostics) (d : Diagnostic)
    (hc : Diagnostics.Contains diags d = true) (hd : d.Severity = Severity.SeverityError) :
    Diagnostics.HasError diags = true := by
  simp only [Diagnostics.Contains, List.any_eq_true, decide_eq_true_eq] at hc
  obtain ⟨e, he, rfl⟩ := hc
  simp only [Diagnostics.HasError, List.any_eq_true, decide_eq_true_eq]
  exact ⟨e, he, hd⟩

theorem HasError_concat (diags : Diagnostics) (d : Diagnostic) :
    Diagnostics.HasError (diags ++ [d])
      = (Diagnostics.HasError diags || decide (d.Severity = Severity.SeverityError)) := by
  simp [Diagnostics.HasError]

theorem HasError_Append (diags : Diagnostics) (new : List Diagnostic) :
    Diagnostics.HasError (Diagnostics.Append diags new)
      = (Diagnostics.HasError diags || Diagnostics.HasError new) := by
  induction new generalizing diags with
  | nil => simp [Diagnostics.Append, Diagnostics.HasError]
  | cons d rest ih =>
    have hstep : Diagnostics.Append diags (d :: rest)
        = Diagnostics.Append (if Diagnostics.Contains diags d then diags else diags ++ [d]) rest := by
      simp [Diagnostics.Append]
    rw [hstep, ih]
    have hcons : Diagnostics.HasError (d :: rest)
        = (decide (d.Severity = Severity.SeverityError) || Diagnostics.HasError rest) := by
      simp [Diagnostics.HasError]
    rw [hcons]
    by_cases hc : Diagnostics.Contains diags d = true
    · rw [if_pos hc]
      by_cases hd : d.Severity = Severity.SeverityError
      · rw [HasError_of_Contains diags d hc hd]; simp
      · simp [hd]
    · rw [if_neg hc, HasError_concat, Bool.or_assoc]

theorem HasError_AddError (diags : Diagnostics) (summary detail : GoString) :
    Diagnostics.HasError (Diagnostics.AddError diags summary detail) = true := by
  rw [Diagnostics.AddError, HasError_Append]
  simp [Diagnostics.HasError]

theorem HasError_of_mem (diags : Diagnostics) (d : Diagnostic) (hd : d ∈ diags)
    (hsev : d.Severity = Severity.SeverityError) : Diagnostics.HasError diags = true := by
  simp only [Diagnostics.HasError, List.any_eq_true, decide_eq_true_eq]
  exact ⟨d, hd, hsev⟩

theorem AddError_mem (diags : Diagnostics) (summary detail : GoString) :
    (⟨Severity.SeverityError, summary, detail⟩ : Diagnostic)
      ∈ Diagnostics.AddError diags summary detail := by
  simp only [Diagnostics.AddError, Diagnostics.Append, List.foldl_cons, List.foldl_nil]
  split
  · rename_i h
    simp only [Diagnostics.Contains, List.any_eq_true, decide_eq_true_eq] at h
    obtain ⟨e, he, rfl⟩ := h
    exact he
  · simp

theorem Append_nil (diags : Diagnostics) : Diagnostics.Append diags [] = diags := by
  simp [Diagnostics.Append]

theorem mem_AddError (diags : Diagnostics) (summary detail : GoString) (d : Diagnostic)
    (hd : d ∈ Diagnostics.AddError diags summary detail) :
    d ∈ diags ∨ d = ⟨Severity.SeverityError, summary, detail⟩ := by
  simp only [Diagnostics.AddError, Diagnostics.Append, List.foldl_cons, List.foldl_nil] at hd
  split at hd
  · exact Or.inl hd
  · simpa using hd

end diag


/-! ## Facts about the lifecycle operations -/

theorem Update_eq_Create (w : World) (r : ModelGardenResource) (plan : tfsdk.Plan)
    (prior : tfsdk.State) (resp : resource.CreateResponse) :
    ModelGardenResource.Update w r ⟨plan, prior⟩ resp
      = ModelGardenResource.Create w r ⟨plan⟩ resp := rfl

theorem Create_of_decode_error (w : World) (r : ModelGardenResource) (plan : tfsdk.Plan)
    (resp : resource.CreateResponse)
    (hplan : diag.Diagnostics.HasError (decodedDiagnostics plan resp) = true) :
    ModelGardenResource.Create w r ⟨plan⟩ resp
      = ⟨Outcome.returned ⟨resp.State, decodedDiagnostics plan resp⟩, []⟩ := by
  simp only [decodedDiagnostics] at hplan
  simp only [ModelGardenResource.Create, hplan, decodedDiagnostics, if_true]

theorem Create_of_client_error (w : World) (r : ModelGardenResource) (plan : tfsdk.Plan)
    (resp : resource.CreateResponse) (err : GoString)
    (hplan : diag.Diagnostics.HasError (decodedDiagnostics plan resp) = false)
    (hclient : w.NewClient plan.GetValue.ProjectID.ValueString
      plan.GetValue.Location.ValueString r.clientOptions = some err) :
    ModelGardenResource.Create w r ⟨plan⟩ resp
      = ⟨Outcome.returned ⟨resp.State, diag.Diagnostics.AddError (decodedDiagnostics plan resp)
          "Error creating Vertex AI client" ("Could not create client: " ++ err)⟩,
        [Call.NewClient plan.GetValue.ProjectID.ValueString
          plan.GetValue.Location.ValueString r.clientOptions]⟩ := by
  simp only [decodedDiagnostics] at hplan
  simp [ModelGardenResource.Create, hplan, hclient, decodedDiagnostics]

theorem Create_of_parse_error (w : World) (r : ModelGardenResource) (plan : tfsdk.Plan)
    (resp : resource.CreateResponse) (err : GoString)
    (hplan : diag.Diagnostics.HasError (decodedDiagnostics plan resp) = false)
    (hclient : w.NewClient plan.GetValue.ProjectID.ValueString
      plan.GetValue.Location.ValueString r.clientOptions = none)
    (hschema : w.Unmarshal plan.GetValue.ResponseSchema.ValueString = Except.error err) :
    ModelGardenResource.Create w r ⟨plan⟩ resp
      = ⟨Outcome.returned ⟨resp.State, diag.Diagnostics.AddError (decodedDiagnostics plan resp)
          "Error while reading the json string of response schema"
          ("Could not create client: " ++ err)⟩,
        [Call.NewClient plan.GetValue.ProjectID.ValueString
          plan.GetValue.Location.ValueString r.clientOptions, Call.Close]⟩ := by
  simp only [decodedDiagnostics] at hplan
  simp [ModelGardenResource.Create, hplan, hclient, hschema, decodedDiagnostics]

theorem Create_of_call_error (w : World) (r : ModelGardenResource) (plan : tfsdk.Plan)
    (resp : resource.CreateResponse) (schemaMap : Schema) (err : GoString)
    (hplan : diag.Diagnostics.HasError (decodedDiagnostics plan resp) = false)
    (hclient : w.NewClient plan.GetValue.ProjectID.ValueString
      plan.GetValue.Location.ValueString r.clientOptions = none)
    (hschema : w.Unmarshal plan.GetValue.ResponseSchema.ValueString = Except.ok schemaMap)
    (hcall : w.GenerateContent (requestedModel r plan.GetValue schemaMap)
      (requestedParts plan.GetValue) = Except.error err) :
    ModelGardenResource.Create w r ⟨plan⟩ resp
      = ⟨Outcome.returned ⟨resp.State, diag.Diagnostics.AddError (decodedDiagnostics plan resp)
          "Error generating content" ("Could not generate content: " ++ err)⟩,
        [Call.NewClient plan.GetValue.ProjectID.ValueString
          plan.GetValue.Location.ValueString r.clientOptions,
         Call.GenerateContent (requestedModel r plan.GetValue schemaMap)
          (requestedParts plan.GetValue), Call.Close]⟩ := by
  simp only [decodedDiagnostics, requestedModel, requestedParts] at hplan hcall
  simp [ModelGardenResource.Create, hplan, hclient, hschema, genai.Client.GenerativeModel,
    hcall, decodedDiagnostics, requestedModel, requestedParts]

theorem Create_of_empty_response (w : World) (r : ModelGardenResource) (plan : tfsdk.Plan)
    (resp : resource.CreateResponse) (schemaMap : Schema)
    (result : genai.GenerateContentResponse)
    (hplan : diag.Diagnostics.HasError (decodedDiagnostics plan resp) = false)
    (hclient : w.NewClient plan.GetValue.ProjectID.ValueString
      plan.GetValue.Location.ValueString r.clientOptions = none)
    (hschema : w.Unmarshal plan.GetValue.ResponseSchema.ValueString = Except.ok schemaMap)
    (hcall : w.GenerateContent (requestedModel r plan.GetValue schemaMap)
      (requestedParts plan.GetValue) = Except.ok result)
    (hempty : result.Candidates = [] ∨
      ∃ candidate candidates content, result.Candidates = candidate :: candidates ∧
        candidate.Content = some content ∧ content.Parts = []) :
    ModelGardenResource.Create w r ⟨plan⟩ resp
      = ⟨Outcome.returned ⟨resp.State, diag.Diagnostics.AddError (decodedDiagnostics plan resp)
          "Empty response" "The model returned an empty response"⟩,
        [Call.NewClient plan.GetValue.ProjectID.ValueString
          plan.GetValue.Location.ValueString r.clientOptions,
         Call.GenerateContent (requestedModel r plan.GetValue schemaMap)
          (requestedParts plan.GetValue), Call.Close]⟩ := by
  simp only [decodedDiagnostics, requestedModel, requestedParts] at hplan hcall
  simp only [ModelGardenResource.Create, hplan, hclient, hschema, genai.Client.GenerativeModel,
    hcall, decodedDiagnostics, requestedModel, requestedParts]
  rcases hempty with h | ⟨candidate, candidates, content, h, hc, hp⟩
  · simp [h]
  · simp [h, hc, hp]

theorem Create_of_missing_content (w : World) (r : ModelGardenResource) (plan : tfsdk.Plan)
    (resp : resource.CreateResponse) (schemaMap : Schema)
    (result : genai.GenerateContentResponse) (candidate : genai.Candidate)
    (candidates : List genai.Candidate)
    (hplan : diag.Diagnostics.HasError (decodedDiagnostics plan resp) = false)
    (hclient : w.NewClient plan.GetValue.ProjectID.ValueString
      plan.GetValue.Location.ValueString r.clientOptions = none)
    (hschema : w.Unmarshal plan.GetValue.ResponseSchema.ValueString = Except.ok schemaMap)
    (hcall : w.GenerateContent (requestedModel r plan.GetValue schemaMap)
      (requestedParts plan.GetValue) = Except.ok result)
    (hcandidates : result.Candidates = candidate :: candidates)
    (hcontent : candidate.Content = none) :
    ModelGardenResource.Create w r ⟨plan⟩ resp
      = ⟨Outcome.panicked ⟨resp.State, decodedDiagnostics plan resp⟩,
        [Call.NewClient plan.GetValue.ProjectID.ValueString
          plan.GetValue.Location.ValueString r.clientOptions,
         Call.GenerateContent (requestedModel r plan.GetValue schemaMap)
          (requestedParts plan.GetValue), Call.Close]⟩ := by
  simp only [decodedDiagnostics, requestedModel, requestedParts] at hplan hcall
  simp [ModelGardenResource.Create, hplan, hclient, hschema, genai.Client.GenerativeModel,
    hcall, decodedDiagnostics, requestedModel, requestedParts, hcandidates, hcontent]

theorem Create_of_answer (w : World) (r : ModelGardenResource) (plan : tfsdk.Plan)
    (resp : resource.CreateResponse) (schemaMap : Schema)
    (result : genai.GenerateContentResponse) (candidate : genai.Candidate)
    (candidates : List genai.Candidate) (content : genai.Content) (part : genai.Part)
    (parts : List genai.Part)
    (hplan : diag.Diagnostics.HasError (decodedDiagnostics plan resp) = false)
    (hclient : w.NewClient plan.GetValue.ProjectID.ValueString
      plan.GetValue.Location.ValueString r.clientOptions = none)
    (hschema : w.Unmarshal plan.GetValue.ResponseSchema.ValueString = Except.ok schemaMap)
    (hcall : w.GenerateContent (requestedModel r plan.GetValue schemaMap)
      (requestedParts plan.GetValue) = Except.ok result)
    (hcandidates : result.Candidates = candidate :: candidates)
    (hcontent : candidate.Content = some content)
    (hparts : content.Parts = part :: parts) :
    ModelGardenResource.Create w r ⟨plan⟩ resp
      = ⟨Outcome.returned
          ⟨some ⟨plan.GetValue.Prompt, plan.GetValue.ProjectID, plan.GetValue.Location,
            plan.GetValue.ModelName, plan.GetValue.ResponseSchema,
            types.StringValue (fmt.Sprintf_v part)⟩,
           decodedDiagnostics plan resp⟩,
        [Call.NewClient plan.GetValue.ProjectID.ValueString
          plan.GetValue.Location.ValueString r.clientOptions,
         Call.GenerateContent (requestedModel r plan.GetValue schemaMap)
          (requestedParts plan.GetValue), Call.Close]⟩ := by
  simp only [decodedDiagnostics, requestedModel, requestedParts] at hplan hcall
  simp [ModelGardenResource.Create, hplan, hclient, hschema, genai.Client.GenerativeModel,
    hcall, decodedDiagnostics, requestedModel, requestedParts, hcandidates, hcontent, hparts,
    tfsdk.State.Set, diag.Append_nil]

theorem Create_trichotomy (w : World) (r : ModelGardenResource) (plan : tfsdk.Plan)
    (resp : resource.CreateResponse) :
    ∃ out,
      (everyStepSucceeds w r plan resp ∧
        (ModelGardenResource.Create w r ⟨plan⟩ resp).outcome = Outcome.returned out ∧
        out.State.isSome = true ∧ diag.Diagnostics.HasError out.Diagnostics = false) ∨
      (¬ everyStepSucceeds w r plan resp ∧
        (ModelGardenResource.Create w r ⟨plan⟩ resp).outcome = Outcome.returned out ∧
        out.State = resp.State ∧ diag.Diagnostics.HasError out.Diagnostics = true) ∨
      (¬ everyStepSucceeds w r plan resp ∧
        (ModelGardenResource.Create w r ⟨plan⟩ resp).outcome = Outcome.panicked out ∧
        out.State = resp.State ∧ diag.Diagnostics.HasError out.Diagnostics = false ∧
        ∃ schemaMap result candidate candidates,
          w.Unmarshal plan.GetValue.ResponseSchema.ValueString = Except.ok schemaMap ∧
          w.GenerateContent (requestedModel r plan.GetValue schemaMap)
            (requestedParts plan.GetValue) = Except.ok result ∧
          result.Candidates = candidate :: candidates ∧ candidate.Content = none) := by
  cases hplan : diag.Diagnostics.HasError (decodedDiagnostics plan resp) with
  | true =>
    rw [Create_of_decode_error w r plan resp hplan]
    refine ⟨_, Or.inr (Or.inl ⟨?_, rfl, rfl, hplan⟩)⟩
    intro hs
    rw [hs.1] at hplan
    exact Bool.noConfusion hplan
  | false =>
    cases hclient : w.NewClient plan.GetValue.ProjectID.ValueString
        plan.GetValue.Location.ValueString r.clientOptions with
    | some err =>
      rw [Create_of_client_error w r plan resp err hplan hclient]
      refine ⟨_, Or.inr (Or.inl ⟨?_, rfl, rfl, diag.HasError_AddError _ _ _⟩)⟩
      intro hs
      rw [hs.2.1] at hclient
      exact Option.noConfusion hclient
    | none =>
      cases hschema : w.Unmarshal plan.GetValue.ResponseSchema.ValueString with
      | error err =>
        rw [Create_of_parse_error w r plan resp err hplan hclient hschema]
        refine ⟨_, Or.inr (Or.inl ⟨?_, rfl, rfl, diag.HasError_AddError _ _ _⟩)⟩
        rintro ⟨_, _, schemaMap, _, _, _, _, _, _, h, _⟩
        rw [h] at hschema
        exact Except.noConfusion hschema
      | ok schemaMap =>
        cases hcall : w.GenerateContent (requestedModel r plan.GetValue schemaMap)
            (requestedParts plan.GetValue) with
        | error err =>
          rw [Create_of_call_error w r plan resp schemaMap err hplan hclient hschema hcall]
          refine ⟨_, Or.inr (Or.inl ⟨?_, rfl, rfl, diag.HasError_AddError _ _ _⟩)⟩
          rintro ⟨_, _, schemaMap2, _, _, _, _, _, _, h, h2, _⟩
          rw [h] at hschema
          cases hschema
          rw [h2] at hcall
          exact Except.noConfusion hcall
        | ok result =>
          cases hcandidates : result.Candidates with
          | nil =>
            rw [Create_of_empty_response w r plan resp schemaMap result hplan
              hclient hschema hcall (Or.inl hcandidates)]
            refine ⟨_, Or.inr (Or.inl ⟨?_, rfl, rfl, diag.HasError_AddError _ _ _⟩)⟩
            rintro ⟨_, _, schemaMap2, result2, _, _, _, _, _, h, h2, h3, _⟩
            rw [h] at hschema
            cases hschema
            rw [h2] at hcall
            cases hcall
            rw [h3] at hcandidates
            exact List.noConfusion hcandidates
          | cons candidate candidates =>
            cases hcontent : candidate.Content with
            | none =>
              rw [Create_of_missing_content w r plan resp schemaMap result candidate candidates
                hplan hclient hschema hcall hcandidates hcontent]
              refine ⟨_, Or.inr (Or.inr ⟨?_, rfl, rfl, hplan, schemaMap, result, candidate,
                candidates, ?_, ?_, ?_, ?_⟩)⟩
              any_goals first | rfl | assumption
              rintro ⟨_, _, schemaMap2, result2, candidate2, _, _, _, _, h, h2, h3, h4, _⟩
              rw [h] at hschema
              cases hschema
              rw [h2] at hcall
              cases hcall
              rw [h3] at hcandidates
              cases hcandidates
              rw [h4] at hcontent
              exact Option.noConfusion hcontent
            | some content =>
              cases hparts : content.Parts with
              | nil =>
                rw [Create_of_empty_response w r plan resp schemaMap result hplan
                  hclient hschema hcall
                  (Or.inr ⟨candidate, candidates, content, hcandidates, hcontent, hparts⟩)]
                refine ⟨_, Or.inr (Or.inl ⟨?_, rfl, rfl, diag.HasError_AddError _ _ _⟩)⟩
                rintro ⟨_, _, schemaMap2, result2, candidate2, _, content2, _, _, h, h2, h3,
                  h4, h5⟩
                rw [h] at hschema
                cases hschema
                rw [h2] at hcall
                cases hcall
                rw [h3] at hcandidates
                cases hcandidates
                rw [h4] at hcontent
                cases hcontent
                rw [h5] at hparts
                exact List.noConfusion hparts
              | cons part parts =>
                rw [Create_of_answer w r plan resp schemaMap result candidate
                  candidates content part parts hplan hclient hschema hcall hcandidates
                  hcontent hparts]
                refine ⟨_, Or.inl ⟨?_, rfl, rfl, hplan⟩⟩
                exact ⟨hplan, hclient, schemaMap, result, candidate, candidates, content, part,
                  parts, hschema, hcall, hcandidates, hcontent, hparts⟩

theorem Create_generation_call (w : World) (r : ModelGardenResource) (plan : tfsdk.Plan)
    (resp : resource.CreateResponse) (model : genai.GenerativeModel)
    (parts : List genai.Part)
    (hmem : Call.GenerateContent model parts
      ∈ (ModelGardenResource.Create w r ⟨plan⟩ resp).calls) :
    ∃ schemaMap, w.Unmarshal plan.GetValue.ResponseSchema.ValueString = Except.ok schemaMap ∧
      model = requestedModel r plan.GetValue schemaMap ∧
      parts = requestedParts plan.GetValue := by
  cases hplan : diag.Diagnostics.HasError (decodedDiagnostics plan resp) with
  | true =>
    rw [Create_of_decode_error w r plan resp hplan] at hmem
    simp at hmem
  | false =>
    cases hclient : w.NewClient plan.GetValue.ProjectID.ValueString
        plan.GetValue.Location.ValueString r.clientOptions with
    | some err =>
      rw [Create_of_client_error w r plan resp err hplan hclient] at hmem
      simp at hmem
    | none =>
      cases hschema : w.Unmarshal plan.GetValue.ResponseSchema.ValueString with
      | error err =>
        rw [Create_of_parse_error w r plan resp err hplan hclient hschema] at hmem
        simp at hmem
      | ok schemaMap =>
        refine ⟨schemaMap, rfl, ?_⟩
        cases hcall : w.GenerateContent (requestedModel r plan.GetValue schemaMap)
            (requestedParts plan.GetValue) with
        | error err =>
          rw [Create_of_call_error w r plan resp schemaMap err hplan hclient hschema hcall]
            at hmem
          simpa using hmem
        | ok result =>
          cases hcandidates : result.Candidates with
          | nil =>
            rw [Create_of_empty_response w r plan resp schemaMap result hplan hclient hschema
              hcall (Or.inl hcandidates)] at hmem
            simpa using hmem
          | cons candidate candidates =>
            cases hcontent : candidate.Content with
            | none =>
              rw [Create_of_missing_content w r plan resp schemaMap result candidate candidates
                hplan hclient hschema hcall hcandidates hcontent] at hmem
              simpa using hmem
            | some content =>
              cases hparts : content.Parts with
              | nil =>
                rw [Create_of_empty_response w r plan resp schemaMap result hplan hclient
                  hschema hcall
                  (Or.inr ⟨candidate, candidates, content, hcandidates, hcontent, hparts⟩)]
                  at hmem
                simpa using hmem
              | cons part rest =>
                rw [Create_of_answer w r plan resp schemaMap result candidate candidates
                  content part rest hplan hclient hschema hcall hcandidates hcontent hparts]
                  at hmem
                simpa using hmem

/-! ## Claims about the lifecycle operations -/

/-- C6 (failing input): the generation call returns, without error, a response whose
only candidate has no content, hence no content part. Create and Update panic in the
guard, which reads `Parts` through the nil `Content`: they do not end with the
`Empty response` diagnostic. Against a candidate whose content is present and has no
part, the same guard does end both with that diagnostic and no state. -/
theorem C6_candidate_without_content_panics :
    contentlessWorld.GenerateContent
        (requestedModel ⟨[]⟩ (planWith objectText).GetValue (SchemaOf.zero "object"))
        (requestedParts (planWith objectText).GetValue) = Except.ok ⟨[⟨none⟩]⟩ ∧
    (ModelGardenResource.Create contentlessWorld ⟨[]⟩ ⟨planWith objectText⟩
      ⟨none, []⟩).outcome = Outcome.panicked ⟨none, []⟩ ∧
    (ModelGardenResource.Update contentlessWorld ⟨[]⟩ ⟨planWith objectText, none⟩
      ⟨none, []⟩).outcome = Outcome.panicked ⟨none, []⟩ ∧
    (ModelGardenResource.Create silentWorld ⟨[]⟩ ⟨planWith objectText⟩ ⟨none, []⟩).outcome
      = Outcome.returned ⟨none, [⟨diag.Severity.SeverityError, "Empty response",
          "The model returned an empty response"⟩]⟩ ∧
    (ModelGardenResource.Update silentWorld ⟨[]⟩ ⟨planWith objectText, none⟩ ⟨none, []⟩).outcome
      = Outcome.returned ⟨none, [⟨diag.Severity.SeverityError, "Empty response",
          "The model returned an empty response"⟩]⟩ := by
  refine ⟨rfl, ?_, ?_, ?_, ?_⟩
  · rw [Create_of_missing_content contentlessWorld ⟨[]⟩ (planWith objectText) ⟨none, []⟩
      (SchemaOf.zero "object") ⟨[⟨none⟩]⟩ ⟨none⟩ [] rfl rfl rfl rfl rfl rfl]
    rfl
  · rw [Update_eq_Create, Create_of_missing_content contentlessWorld ⟨[]⟩ (planWith objectText)
      ⟨none, []⟩ (SchemaOf.zero "object") ⟨[⟨none⟩]⟩ ⟨none⟩ [] rfl rfl rfl rfl rfl rfl]
    rfl
  · rw [Create_of_empty_response silentWorld ⟨[]⟩ (planWith objectText) ⟨none, []⟩
      (SchemaOf.zero "object") ⟨[⟨some ⟨[]⟩⟩]⟩ rfl rfl rfl rfl
      (Or.inr ⟨⟨some ⟨[]⟩⟩, [], ⟨[]⟩, rfl, rfl, rfl⟩)]
    rfl
  · rw [Update_eq_Create, Create_of_empty_response silentWorld ⟨[]⟩ (planWith objectText)
      ⟨none, []⟩ (SchemaOf.zero "object") ⟨[⟨some ⟨[]⟩⟩]⟩ rfl rfl rfl rfl
      (Or.inr ⟨⟨some ⟨[]⟩⟩, [], ⟨[]⟩, rfl, rfl, rfl⟩)]
    rfl

/-- C7: Create is atomic. When every step succeeds it returns with the state set and
no error diagnostic held. When some step fails the state is the one the response had
before the call, and Create returns with an error diagnostic held, unless the first
candidate of the answer has no content, where it panics with the response as it was
after plan decoding. So an error diagnostic leaves the state untouched, and a response
that starts without a state ends with one if and only if every step succeeded. -/
theorem C7_Create_is_atomic (w : World) (r : ModelGardenResource) (plan : tfsdk.Plan)
    (resp : resource.CreateResponse) :
    ∃ out, (ModelGardenResource.Create w r ⟨plan⟩ resp).outcome.resp = out ∧
      ((ModelGardenResource.Create w r ⟨plan⟩ resp).outcome = Outcome.returned out ∨
        ((ModelGardenResource.Create w r ⟨plan⟩ resp).outcome = Outcome.panicked out ∧
          ∃ schemaMap result candidate candidates,
            w.Unmarshal plan.GetValue.ResponseSchema.ValueString = Except.ok schemaMap ∧
            w.GenerateContent (requestedModel r plan.GetValue schemaMap)
              (requestedParts plan.GetValue) = Except.ok result ∧
            result.Candidates = candidate :: candidates ∧ candidate.Content = none)) ∧
      (everyStepSucceeds w r plan resp →
        (ModelGardenResource.Create w r ⟨plan⟩ resp).outcome = Outcome.returned out ∧
        out.State.isSome = true ∧ diag.Diagnostics.HasError out.Diagnostics = false) ∧
      (¬ everyStepSucceeds w r plan resp →
        out.State = resp.State ∧
        ((ModelGardenResource.Create w r ⟨plan⟩ resp).outcome = Outcome.returned out →
          diag.Diagnostics.HasError out.Diagnostics = true)) ∧
      (diag.Diagnostics.HasError out.Diagnostics = true → out.State = resp.State) ∧
      (resp.State = none → (out.State.isSome = true ↔ everyStepSucceeds w r plan resp)) := by
  obtain ⟨out, hcase⟩ := Create_trichotomy w r plan resp
  refine ⟨out, ?_, ?_, ?_, ?_, ?_, ?_⟩
  · rcases hcase with h | h | h
    · rw [h.2.1]; rfl
    · rw [h.2.1]; rfl
    · rw [h.2.1]; rfl
  · rcases hcase with h | h | h
    · exact Or.inl h.2.1
    · exact Or.inl h.2.1
    · exact Or.inr ⟨h.2.1, h.2.2.2.2⟩
  · intro hs
    rcases hcase with h | h | h
    · exact h.2
    · exact absurd hs h.1
    · exact absurd hs h.1
  · intro hs
    rcases hcase with h | h | h
    · exact absurd h.1 hs
    · exact ⟨h.2.2.1, fun _ => h.2.2.2⟩
    · refine ⟨h.2.2.1, fun hret => ?_⟩
      rw [h.2.1] at hret
      exact Outcome.noConfusion hret
  · intro he
    rcases hcase with h | h | h
    · rw [h.2.2.2] at he
      exact Bool.noConfusion he
    · exact h.2.2.1
    · exact h.2.2.1
  · intro hnone
    rcases hcase with h | h | h
    · exact ⟨fun _ => h.1, fun _ => h.2.2.1⟩
    · constructor
      · intro hsome
        rw [h.2.2.1, hnone] at hsome
        exact Bool.noConfusion hsome
      · intro hs
        exact absurd hs h.1
    · constructor
      · intro hsome
        rw [h.2.2.1, hnone] at hsome
        exact Bool.noConfusion hsome
      · intro hs
        exact absurd hs h.1

/-- C8 (counterexample): with a truncated schema text and a backend for which no
client can be created, Create fails with the client-creation diagnostic; the
schema-parse diagnostic is not raised. -/
theorem C8_client_error_comes_first :
    unreachableWorld.Unmarshal (planWith truncatedText).GetValue.ResponseSchema.ValueString
      = Except.error "unexpected end of JSON input" ∧
    ∃ out,
      (ModelGardenResource.Create unreachableWorld ⟨[]⟩ ⟨planWith truncatedText⟩
        ⟨none, []⟩).outcome = Outcome.returned out ∧
      out.Diagnostics = [⟨diag.Severity.SeverityError, "Error creating Vertex AI client",
        "Could not create client: could not find default credentials"⟩] ∧
      ∀ d ∈ out.Diagnostics,
        d.Summary ≠ "Error while reading the json string of response schema" := by
  refine ⟨rfl, ⟨none, [⟨diag.Severity.SeverityError, "Error creating Vertex AI client",
    "Could not create client: could not find default credentials"⟩]⟩, rfl, rfl, ?_⟩
  intro d hd
  simp only [List.mem_singleton] at hd
  rw [hd]
  decide

/-- C8 (amended): for every plan that decodes without error and for which the client
is created, if the response_schema text fails to parse then Create returns with the
state untouched and with one added diagnostic, the error titled `Error while reading
the json string of response schema`; it is the only error diagnostic held, and no
generation call is made. -/
theorem C8_malformed_schema_is_a_parse_error (w : World) (r : ModelGardenResource)
    (plan : tfsdk.Plan) (resp : resource.CreateResponse) (err : GoString)
    (hplan : diag.Diagnostics.HasError (decodedDiagnostics plan resp) = false)
    (hclient : w.NewClient plan.GetValue.ProjectID.ValueString
      plan.GetValue.Location.ValueString r.clientOptions = none)
    (hschema : w.Unmarshal plan.GetValue.ResponseSchema.ValueString = Except.error err) :
    ∃ out, (ModelGardenResource.Create w r ⟨plan⟩ resp).outcome = Outcome.returned out ∧
      out.State = resp.State ∧
      out.Diagnostics = diag.Diagnostics.AddError (decodedDiagnostics plan resp)
        "Error while reading the json string of response schema"
        ("Could not create client: " ++ err) ∧
      diag.Diagnostics.HasError out.Diagnostics = true ∧
      (∀ d ∈ out.Diagnostics, d.Severity = diag.Severity.SeverityError →
        d.Summary = "Error while reading the json string of response schema") ∧
      (∀ model parts, Call.GenerateContent model parts
        ∉ (ModelGardenResource.Create w r ⟨plan⟩ resp).calls) := by
  rw [Create_of_parse_error w r plan resp err hplan hclient hschema]
  refine ⟨_, rfl, rfl, rfl, diag.HasError_AddError _ _ _, ?_, ?_⟩
  · intro d hd hsev
    rcases diag.mem_AddError _ _ _ d hd with h | h
    · have := diag.HasError_of_mem _ d h hsev
      rw [hplan] at this
      exact Bool.noConfusion this
    · rw [h]
  · intro model parts
    simp

/-- C8 (witness): with the truncated schema text and a backend that would answer,
Create ends with the single schema-parse error diagnostic and no state. -/
theorem C8_malformed_schema_is_a_parse_error_witness :
    ∃ out, (ModelGardenResource.Create answeringWorld ⟨[]⟩ ⟨planWith truncatedText⟩
        ⟨none, []⟩).outcome = Outcome.returned out ∧
      out.State = none ∧
      out.Diagnostics = [⟨diag.Severity.SeverityError,
        "Error while reading the json string of response schema",
        "Could not create client: unexpected end of JSON input"⟩] :=
  have ⟨out, h1, h2, h3, _⟩ := C8_malformed_schema_is_a_parse_error answeringWorld ⟨[]⟩
    (planWith truncatedText) ⟨none, []⟩ "unexpected end of JSON input" rfl rfl rfl
  ⟨out, h1, h2, h3⟩

/-- C9: for every plan that decodes without error, whose client is created and whose
response_schema parses, and for every response of the generation call with a first
candidate that has a first part, Create returns with no error diagnostic and with a
state whose response is the `%v` text of that first part, whatever the other parts
and candidates, and whose prompt, project_id, location, model_name and
response_schema are those of the plan. -/
theorem C9_Create_commits_first_part (w : World) (r : ModelGardenResource)
    (plan : tfsdk.Plan) (resp : resource.CreateResponse) (schemaMap : Schema)
    (result : genai.GenerateContentResponse) (candidate : genai.Candidate)
    (candidates : List genai.Candidate) (content : genai.Content) (part : genai.Part)
    (parts : List genai.Part)
    (hplan : diag.Diagnostics.HasError (decodedDiagnostics plan resp) = false)
    (hclient : w.NewClient plan.GetValue.ProjectID.ValueString
      plan.GetValue.Location.ValueString r.clientOptions = none)
    (hschema : w.Unmarshal plan.GetValue.ResponseSchema.ValueString = Except.ok schemaMap)
    (hcall : w.GenerateContent (requestedModel r plan.GetValue schemaMap)
      (requestedParts plan.GetValue) = Except.ok result)
    (hcandidates : result.Candidates = candidate :: candidates)
    (hcontent : candidate.Content = some content)
    (hparts : content.Parts = part :: parts) :
    ∃ out committed,
      (ModelGardenResource.Create w r ⟨plan⟩ resp).outcome = Outcome.returned out ∧
      diag.Diagnostics.HasError out.Diagnostics = false ∧
      out.State = some committed ∧
      committed.Response = types.StringValue (fmt.Sprintf_v part) ∧
      committed.Prompt = plan.GetValue.Prompt ∧
      committed.ProjectID = plan.GetValue.ProjectID ∧
      committed.Location = plan.GetValue.Location ∧
      committed.ModelName = plan.GetValue.ModelName ∧
      committed.ResponseSchema = plan.GetValue.ResponseSchema := by
  rw [Create_of_answer w r plan resp schemaMap result candidate candidates content part parts
    hplan hclient hschema hcall hcandidates hcontent hparts]
  exact ⟨_, _, rfl, hplan, rfl, rfl, rfl, rfl, rfl, rfl, rfl⟩

/-- C9 (witness): against a backend answering with two candidates, the first with
the parts `first` and `second`, Create commits the plan with response `first`. -/
theorem C9_Create_commits_first_part_witness :
    ∃ out committed,
      (ModelGardenResource.Create answeringWorld ⟨[]⟩ ⟨planWith objectText⟩
        ⟨none, []⟩).outcome = Outcome.returned out ∧
      diag.Diagnostics.HasError out.Diagnostics = false ∧
      out.State = some committed ∧
      committed.Response = types.String.Value "first" :=
  have ⟨out, committed, h1, h2, h3, h4, _⟩ := C9_Create_commits_first_part answeringWorld ⟨[]⟩
    (planWith objectText) ⟨none, []⟩ (SchemaOf.zero "object")
    ⟨[⟨some ⟨[genai.Part.Text "first", genai.Part.Text "second"]⟩⟩,
      ⟨some ⟨[genai.Part.Text "third"]⟩⟩]⟩
    ⟨some ⟨[genai.Part.Text "first", genai.Part.Text "second"]⟩⟩
    [⟨some ⟨[genai.Part.Text "third"]⟩⟩]
    ⟨[genai.Part.Text "first", genai.Part.Text "second"]⟩
    (genai.Part.Text "first") [genai.Part.Text "second"] rfl rfl rfl rfl rfl rfl rfl
  ⟨out, committed, h1, h2, h3, h4⟩

/-- C10: Update is the same procedure as Create. For every plan, every prior state
and every behaviour of the collaborators, Update makes the same backend calls as
Create and ends with the same outcome; a generation call, when one is made, is for
the model named by the plan with the JSON output encoding, the translated schema and
the prompt of the plan. -/
theorem C10_Update_is_Create (w : World) (r : ModelGardenResource) (plan : tfsdk.Plan)
    (prior : tfsdk.State) (resp : resource.CreateResponse) :
    (ModelGardenResource.Update w r ⟨plan, prior⟩ resp).calls
      = (ModelGardenResource.Create w r ⟨plan⟩ resp).calls ∧
    (ModelGardenResource.Update w r ⟨plan, prior⟩ resp).outcome
      = (ModelGardenResource.Create w r ⟨plan⟩ resp).outcome ∧
    (∀ model parts, Call.GenerateContent model parts
        ∈ (ModelGardenResource.Update w r ⟨plan, prior⟩ resp).calls →
      ∃ schemaMap,
        w.Unmarshal plan.GetValue.ResponseSchema.ValueString = Except.ok schemaMap ∧
        model.name = plan.GetValue.ModelName.ValueString ∧
        model.GenerationConfig.ResponseMIMEType = "application/json" ∧
        model.GenerationConfig.ResponseSchema = convertToGenAISchema (some schemaMap) ∧
        parts = [genai.Part.Text plan.GetValue.Prompt.ValueString]) := by
  rw [Update_eq_Create]
  refine ⟨rfl, rfl, ?_⟩
  intro model parts hmem
  obtain ⟨schemaMap, h1, h2, h3⟩ := Create_generation_call w r plan resp model parts hmem
  exact ⟨schemaMap, h1, by rw [h2]; rfl, by rw [h2]; rfl, by rw [h2]; rfl, h3⟩

end provider
